import Mathlib

/-!
Verification development for the hyper-signals repository.

The Python sources (scripts/fetch_positions.py, scripts/daily_feed.py,
scripts/format_thread.py, scripts/post_typefully.py) are shallowly embedded
below.  Conventions used throughout:

* Python floats are modelled as exact rationals (`ℚ`); the fixed-point
  rendering used by f-strings rounds half-to-even, which is implemented
  exactly on numerator/denominator pairs (`fixedParts`).
* Python dicts are modelled as insertion-ordered association lists
  (`List (String × β)`) with `dictInsert` / `dictLookup` / `dictRemove`
  reproducing assignment, `.get` and `del` semantics.
* Network effects are modelled by parameters: each HTTP attempt is an
  `AttemptResult` value supplied by an environment function, and the retry
  loop records an event trace (`RunEvent`) of attempts and back-off sleeps.
* Raised exceptions are modelled with `Except`.
* The wall clock is a parameter (seconds since the Unix epoch, as `Int`);
  `strftime` renderings are implemented via the standard Gregorian
  days-to-civil conversion.
* String literals are copied verbatim from the source files; format_thread.py
  is stored with doubly-encoded (mojibake) emoji, which are reproduced as-is.
-/

/-! ## Python dict model -/

/-- Python dict lookup `d[k]` / `d.get(k)` on an insertion-ordered
association list. -/
def dictLookup (d : List (String × β)) (k : String) : Option β :=
  match d with
  | [] => none
  | (k', v) :: rest => if k' = k then some v else dictLookup rest k

/-- Python dict assignment `d[k] = v`: overwrite in place if the key exists,
otherwise append at the end (insertion order). -/
def dictInsert (d : List (String × β)) (k : String) (v : β) : List (String × β) :=
  match d with
  | [] => [(k, v)]
  | (k', v') :: rest => if k' = k then (k', v) :: rest else (k', v') :: dictInsert rest k v

/-- Key list of a dict, in insertion order. -/
def dictKeys (d : List (String × β)) : List String :=
  d.map Prod.fst

/-- Python dict `del d[k]` (removing every binding of `k`; a well-formed
dict has at most one). -/
def dictRemove (d : List (String × β)) (k : String) : List (String × β) :=
  match d with
  | [] => []
  | (k', v) :: rest => if k' = k then dictRemove rest k else (k', v) :: dictRemove rest k

/-! ## Data model

A position record as consumed by the formatter; each field holds the result
of the corresponding `position.get(...)` with the source's default. -/

structure Position where
  side : Option String := none
  address_label : Option String := none
  address : String := ""
  position_value_usd : ℚ := 0
  upnl_usd : ℚ := 0
  entry_price : ℚ := 0
deriving DecidableEq

/-- A per-token result dict: `{"data": [...]}` from the API on success, or
the error marker `{"data": [], "error": msg}` recorded by the aggregator. -/
structure TokenResult where
  data : List Position
  error : Option String := none
deriving DecidableEq

/-! ## Retrying fetcher (fetch_positions.py lines 31-93, identical copy in
daily_feed.py lines 116-163) -/

/-- The data carried by an `httpx.HTTPStatusError`: the response status code
and body text, plus `msg`, the exception's `str(...)` rendering. -/
structure HttpError where
  status_code : Nat
  text : String
  msg : String
deriving DecidableEq

/-- Outcome of a single `client.post(...)` + `raise_for_status()` attempt:
`success` carries `response.json()`, the other constructors are the caught
`httpx.TimeoutException`, `httpx.HTTPStatusError` and `httpx.RequestError`
(the timeout/request cases carrying their `str(...)` rendering). -/
inductive AttemptResult (α : Type) where
  | success (v : α)
  | timeoutErr (msg : String)
  | statusErr (e : HttpError)
  | requestErr (msg : String)
deriving DecidableEq

/-- Observable events of one `fetch_positions_with_retry` run: issuing
attempt `i` (0-based), and `time.sleep` with the given duration. -/
inductive RunEvent where
  | attempt (i : Nat)
  | sleep (d : ℚ)
deriving DecidableEq

/-- Exception escaping `fetch_positions_with_retry`: the re-raised
`httpx.HTTPStatusError` for a non-429 4xx, or the terminal `RuntimeError`
after exhausting all attempts. -/
inductive FetchError where
  | clientError (e : HttpError)
  | retriesExhausted (token : String) (maxRetries : Nat)
deriving DecidableEq

/-- Python `str(e)` of a `FetchError` (the `RuntimeError` message is the
f-string from fetch_positions.py line 93). -/
def FetchError.toMsg : FetchError → String
  | .clientError e => e.msg
  | .retriesExhausted token maxRetries =>
      "Failed to fetch " ++ token ++ " after " ++ toString maxRetries ++ " attempts"

/-- The `for attempt in range(max_retries)` loop body.  Arguments after the
colon: current attempt index, remaining loop iterations, current back-off.
On a retryable failure the loop sleeps (`RunEvent.sleep`) and doubles the
back-off only when `attempt < max_retries - 1`, i.e. when more than one
iteration remains; a non-429 4xx status error is re-raised at once. -/
def fetchAux (token : String) (outcome : Nat → AttemptResult α) (maxRetries : Nat) :
    Nat → Nat → ℚ → Except FetchError α × List RunEvent
  | _, 0, _ => (.error (.retriesExhausted token maxRetries), [])
  | i, r + 1, b =>
    let next : Except FetchError α × List RunEvent :=
      if 0 < r then
        let rest := fetchAux token outcome maxRetries (i + 1) r (2 * b)
        (rest.1, RunEvent.attempt i :: RunEvent.sleep b :: rest.2)
      else
        let rest := fetchAux token outcome maxRetries (i + 1) r b
        (rest.1, RunEvent.attempt i :: rest.2)
    match outcome i with
    | .success v => (.ok v, [RunEvent.attempt i])
    | .statusErr e =>
      if 400 ≤ e.status_code ∧ e.status_code < 500 ∧ e.status_code ≠ 429 then
        (.error (.clientError e), [RunEvent.attempt i])
      else next
    | .timeoutErr _ => next
    | .requestErr _ => next

/-- `fetch_positions_with_retry(token, api_key, max_retries, initial_backoff)`.
The network is abstracted by `outcome`, giving the result of each attempt;
the return value pairs the Python result (normal return or raised exception)
with the trace of attempts and sleeps. -/
def fetch_positions_with_retry (token : String) (outcome : Nat → AttemptResult α)
    (max_retries : Nat) (initial_backoff : ℚ) : Except FetchError α × List RunEvent :=
  fetchAux token outcome max_retries 0 max_retries initial_backoff

/-- An attempt outcome that the source's `except` clauses retry: a timeout,
a request/connection error, or an HTTP status error that is not a non-429
4xx (i.e. a 5xx or a 429). -/
def RetryableFailure : AttemptResult α → Prop
  | .success _ => False
  | .timeoutErr _ => True
  | .requestErr _ => True
  | .statusErr e => ¬ (400 ≤ e.status_code ∧ e.status_code < 500 ∧ e.status_code ≠ 429)

instance : DecidablePred (RetryableFailure (α := α)) := by
  intro o
  cases o <;> simp only [RetryableFailure] <;> infer_instance

/-- Trace produced by `k` consecutive retryable failures starting at attempt
`i` with back-off `b`: each attempt is followed by a sleep of the current
back-off, which then doubles. -/
def failTrace (b : ℚ) (i : Nat) : Nat → List RunEvent
  | 0 => []
  | k + 1 => RunEvent.attempt i :: RunEvent.sleep b :: failTrace (2 * b) (i + 1) k

/-! ## Aggregator (`fetch_all_positions`, fetch_positions.py lines 96-114,
identical copy in daily_feed.py lines 166-185) -/

/-- `fetch_all_positions(tokens, api_key)`: iterate tokens in order; store
the fetched result on success, and the marker `{"data": [], "error": str(e)}`
when the per-token fetch raises.  The per-token fetch is abstracted as
`fetch`, returning either the decoded result or the raised exception's
`str(...)`. -/
def fetch_all_positions (tokens : List String)
    (fetch : String → Except String TokenResult) : List (String × TokenResult) :=
  tokens.foldl
    (fun results token =>
      match fetch token with
      | .ok r => dictInsert results token r
      | .error e => dictInsert results token { data := [], error := some e })
    []

/-- The entry that `fetch_all_positions` records for a token: the fetched
result on success, the error marker on an exception. -/
def fetchEntry (fetch : String → Except String TokenResult) (t : String) : TokenResult :=
  match fetch t with
  | .ok r => r
  | .error e => { data := [], error := some e }

/-- Keys of a Python dict built by assigning each element of `tokens` once,
in iteration order: the input list with every later duplicate dropped. -/
def firstOccurKeys (tokens : List String) : List String :=
  tokens.foldl (fun ks t => if t ∈ ks then ks else ks ++ [t]) []

/-! ## Numeric formatting (format_thread.py lines 28-97)

CPython's fixed-point float formatting `f"{v:.Df}"` rounds the value half
to even at `D` decimals; `halfEvenNat` does this rounding for the fraction
`n / d`. -/

/-- Round `n / d` (with `d > 0`) to the nearest natural number, ties going
to the even neighbour. -/
def halfEvenNat (n d : Nat) : Nat :=
  let t := n / d
  let r := n % d
  if 2 * r < d then t
  else if d < 2 * r then t + 1
  else if t % 2 = 0 then t else t + 1

/-- Decimal rendering of `n`, left-padded with zeros to width `w`. -/
def padZeros (w n : Nat) : String :=
  let s := toString n
  String.mk (List.replicate (w - s.length) '0') ++ s

/-- Thousands grouping of a natural number (fuel-indexed recursion; the fuel
is always sufficient since the caller passes the number itself). -/
def commaGroupFuel : Nat → Nat → String
  | 0, n => toString n
  | fuel + 1, n =>
    if n < 1000 then toString n
    else commaGroupFuel fuel (n / 1000) ++ "," ++ padZeros 3 (n % 1000)

/-- Decimal rendering of `n` with a comma every three digits, as produced by
Python's `,` format flag. -/
def commaGroup (n : Nat) : String := commaGroupFuel n n

/-- Python `f"{v:.Df}"` (and `f"{v:,.Df}"` when `comma` is set) for the
rational `n / d` with `d > 0`: round half to even at `decimals` decimals,
keeping the sign of the input value. -/
def fixedParts (n : ℤ) (d decimals : Nat) (comma : Bool) : String :=
  let scaled := halfEvenNat (n.natAbs * 10 ^ decimals) d
  let ip := scaled / 10 ^ decimals
  let fp := scaled % 10 ^ decimals
  let ipStr := if comma then commaGroup ip else toString ip
  (if n < 0 then "-" else "") ++ ipStr ++
    (if decimals = 0 then "" else "." ++ padZeros decimals fp)

/-- `format_number(n, include_sign)` from format_thread.py lines 28-51:
K/M/B magnitude suffixes, one decimal, optional `+` prefix.  The Python
division `abs_n / 1_000_000_000` is the exact rational
`abs_n.num / (abs_n.den * 1_000_000_000)`. -/
def format_number (n : ℚ) (include_sign : Bool := false) : String :=
  let sign := if include_sign ∧ 0 < n then "+" else ""
  let abs_n := |n|
  let pfx := if n < 0 then "-" else sign
  if 1000000000 ≤ abs_n then
    pfx ++ "$" ++ fixedParts abs_n.num (abs_n.den * 1000000000) 1 false ++ "B"
  else if 1000000 ≤ abs_n then
    pfx ++ "$" ++ fixedParts abs_n.num (abs_n.den * 1000000) 1 false ++ "M"
  else if 1000 ≤ abs_n then
    pfx ++ "$" ++ fixedParts abs_n.num (abs_n.den * 1000) 1 false ++ "K"
  else
    pfx ++ "$" ++ fixedParts abs_n.num abs_n.den 0 false

/-- `format_price(price)` from format_thread.py lines 54-67 (identical copy
in daily_feed.py lines 207-213): `f"${price:,.0f}"` at or above 1000,
`f"${price:,.2f}"` at or above 1, else `f"${price:.4f}"`. -/
def format_price (price : ℚ) : String :=
  if 1000 ≤ price then "$" ++ fixedParts price.num price.den 0 true
  else if 1 ≤ price then "$" ++ fixedParts price.num price.den 2 true
  else "$" ++ fixedParts price.num price.den 4 false

/-! ## Thread formatting (format_thread.py lines 70-224) -/

/-- `truncate_label(label, max_len)` from format_thread.py lines 70-82. -/
def truncate_label (label : String) (max_len : Nat := 12) : String :=
  if label.length ≤ max_len then label
  else label.take (max_len - 1) ++ "â€¦"

/-- `format_address(address)` from format_thread.py lines 85-96. -/
def format_address (address : String) : String :=
  if address = "" ∨ address.length < 10 then "[unknown]"
  else "[" ++ address.take 6 ++ "]"

/-- `format_position_line(rank, position)` from format_thread.py
lines 99-128. -/
def format_position_line (rank : Nat) (position : Position) : String :=
  let side_emoji := if position.side = some "Long" then "ðŸŸ¢" else "ðŸ”´"
  let label := position.address_label.getD ""
  let label_str := if label ≠ "" then truncate_label label 12 else ""
  let addr_str := format_address position.address
  let size_str := format_number position.position_value_usd
  let pnl_str := format_number position.upnl_usd true
  let entry_str := format_price position.entry_price
  if label_str ≠ "" then
    toString rank ++ ". " ++ label_str ++ " " ++ addr_str ++ "\n   " ++ side_emoji ++
      " " ++ size_str ++ " @ " ++ entry_str ++ " â†’ " ++ pnl_str
  else
    toString rank ++ ". " ++ addr_str ++ "\n   " ++ side_emoji ++
      " " ++ size_str ++ " @ " ++ entry_str ++ " â†’ " ++ pnl_str

/-- Python `"\n".join(lines)`. -/
def joinNL : List String → String
  | [] => ""
  | [x] => x
  | x :: xs => x ++ "\n" ++ joinNL xs

/-- A Typefully post: `{"text": ..., "media_ids"?: [...]}`. -/
structure Post where
  text : String
  media_ids : Option (List String) := none
deriving DecidableEq

def POSITIONS_PER_TWEET : Nat := 5

def TOKENS : List String := ["BTC", "ETH", "SOL", "HYPE"]

/-- The chunk loop of `format_token_tweets` (format_thread.py lines 153-176):
`for chunk_idx in range(0, total_positions, POSITIONS_PER_TWEET)` with
`chunk = positions[chunk_idx:chunk_idx+POSITIONS_PER_TWEET]`, realised by
recursion on the not-yet-chunked suffix.  `dateStr` is the ambient
`datetime.now().strftime("%B %d, %Y")`. -/
def chunkTweets (dateStr token : String)
    (total_positions longs shorts total_chunks : Nat) (is_first : Bool) :
    Nat → List Position → List Post
  | _, [] => []
  | chunk_idx, p :: ps =>
    let chunk := (p :: ps).take POSITIONS_PER_TWEET
    let chunk_num := chunk_idx / POSITIONS_PER_TWEET + 1
    let header :=
      if chunk_idx = 0 then
        if is_first then
          "ðŸ”¥ $" ++ token ++ " Top " ++ toString total_positions ++
            " Positions\nðŸ“… " ++ dateStr ++ "\n\nðŸŸ¢ " ++ toString longs ++
            " Longs | ðŸ”´ " ++ toString shorts ++ " Shorts"
        else
          "$" ++ token ++ " Top " ++ toString total_positions ++
            " Positions\n\nðŸŸ¢ " ++ toString longs ++
            " Longs | ðŸ”´ " ++ toString shorts ++ " Shorts"
      else
        "$" ++ token ++ " Positions (" ++ toString chunk_num ++ "/" ++
          toString total_chunks ++ ")"
    let lines := [header, ""] ++
      chunk.enum.map (fun ip => format_position_line (chunk_idx + ip.1 + 1) ip.2)
    { text := joinNL lines } ::
      chunkTweets dateStr token total_positions longs shorts total_chunks is_first
        (chunk_idx + POSITIONS_PER_TWEET) (ps.drop (POSITIONS_PER_TWEET - 1))
termination_by _ l => l.length
decreasing_by simp [List.length_drop]; omega

/-- `format_token_tweets(token, positions, is_first)` from format_thread.py
lines 131-178. -/
def format_token_tweets (dateStr token : String) (positions : List Position)
    (is_first : Bool := false) : List Post :=
  if positions.isEmpty then [{ text := "$" ++ token ++ ": No positions found" }]
  else
    let total_positions := positions.length
    let longs := (positions.filter (fun p => p.side = some "Long")).length
    let shorts := (positions.filter (fun p => p.side = some "Short")).length
    let total_chunks := (total_positions + POSITIONS_PER_TWEET - 1) / POSITIONS_PER_TWEET
    chunkTweets dateStr token total_positions longs shorts total_chunks is_first 0 positions

/-- `format_footer_tweet()` from format_thread.py lines 181-192. -/
def format_footer_tweet : Post :=
  { text := "ðŸ“ˆ Data: @naborlabs\nðŸ¤– Powered by hyper-signals\n\nFollow for daily updates!" }

/-- A value of the input mapping handed to `format_thread`: the source
accepts both a dict (`{"data": [...]}`) and a bare list of positions. -/
inductive TokenValue where
  | obj (r : TokenResult)
  | arr (ps : List Position)
deriving DecidableEq

/-- The position list `format_thread` extracts for a token
(format_thread.py lines 208-215): `data.get(token, {})`, then `.get("data", [])`
on a dict or the value itself on a list. -/
def positionsOf (data : List (String × TokenValue)) (token : String) : List Position :=
  match dictLookup data token with
  | none => []
  | some (.obj r) => r.data
  | some (.arr ps) => ps

/-- `format_thread(data)` from format_thread.py lines 195-224: one batch of
tweets per configured token that has positions (the first such token gets
the date header), then the footer. -/
def format_thread (dateStr : String) (data : List (String × TokenValue)) : List Post :=
  (TOKENS.enum.foldl
    (fun posts it =>
      let positions := positionsOf data it.2
      if positions.isEmpty then posts
      else posts ++ format_token_tweets dateStr it.2 positions (it.1 == 0))
    []) ++ [format_footer_tweet]

/-! ## Calendar rendering

CPython's `strftime` applied to an aware UTC datetime, for the two format
strings the sources use.  Epoch seconds are converted with floor division
(Python `divmod`) and the standard Gregorian days-to-civil conversion. -/

/-- Gregorian civil date `(year, month, day)` of a day count relative to
1970-01-01. -/
def civilFromDays (z0 : Int) : Int × Nat × Nat :=
  let z := z0 + 719468
  let era := Int.fdiv z 146097
  let doe := (z - era * 146097).toNat
  let yoe := (doe - doe / 1460 + doe / 36524 - doe / 146096) / 365
  let doy := doe - (365 * yoe + yoe / 4 - yoe / 100)
  let mp := (5 * doy + 2) / 153
  let day := doy - (153 * mp + 2) / 5 + 1
  let m := if mp < 10 then mp + 3 else mp - 9
  let y := (yoe : Int) + era * 400 + (if m ≤ 2 then 1 else 0)
  (y, m, day)

/-- Rendering of a (rarely negative) year, zero-padded to four digits. -/
def yearStr (y : Int) : String :=
  if 0 ≤ y then padZeros 4 y.toNat else "-" ++ padZeros 4 (-y).toNat

/-- `strftime("%Y-%m-%dT%H:%M:%SZ")` of a UTC instant given in epoch
seconds (post_typefully.py line 77, daily_feed.py line 640). -/
def formatUtcTimestamp (t : Int) : String :=
  let days := Int.fdiv t 86400
  let sod := (t - 86400 * days).toNat
  let c := civilFromDays days
  yearStr c.1 ++ "-" ++ padZeros 2 c.2.1 ++ "-" ++ padZeros 2 c.2.2 ++ "T" ++
    padZeros 2 (sod / 3600) ++ ":" ++ padZeros 2 (sod % 3600 / 60) ++ ":" ++
    padZeros 2 (sod % 60) ++ "Z"

/-- `strftime("%Y-%m-%d")` of an instant given in epoch seconds
(post_typefully.py line 70). -/
def formatDateYMD (t : Int) : String :=
  let days := Int.fdiv t 86400
  let c := civilFromDays days
  yearStr c.1 ++ "-" ++ padZeros 2 c.2.1 ++ "-" ++ padZeros 2 c.2.2

/-! ## Publisher (post_typefully.py lines 51-92) -/

/-- One platform entry of the draft payload: `{"enabled": ..., "posts": ...}`. -/
structure PlatformCfg where
  enabled : Bool
  posts : List Post
deriving DecidableEq

/-- The draft-creation request body built by `create_draft`. -/
structure DraftPayload where
  platforms : List (String × PlatformCfg)
  draft_title : String
  share : Bool
  publish_at : Option String := none
deriving DecidableEq

/-- The synthetic dict returned in dry-run mode (post_typefully.py line 82). -/
structure DryRunResult where
  id : String
  status : String
  posts_count : Nat
deriving DecidableEq

/-- Result of `create_draft`: either the synthetic dry-run acknowledgment
(no HTTP request issued), or the HTTP POST that is sent to
`/social-sets/{social_set_id}/drafts` with the given bearer key and payload
(whose response the function returns verbatim). -/
inductive DraftOutcome where
  | dryRun (r : DryRunResult)
  | posted (api_key : String) (social_set_id : Int) (payload : DraftPayload)
deriving DecidableEq

/-- `create_draft(api_key, social_set_id, posts, schedule_minutes, dry_run)`
from post_typefully.py lines 51-92.  `nowLocal` and `nowUtc` are the epoch
seconds of `datetime.now()` and `datetime.now(timezone.utc)`.  Note the
truthiness test `if schedule_minutes:` is false both for `None` and for `0`. -/
def create_draft (api_key : String) (social_set_id : Int) (posts : List Post)
    (schedule_minutes : Option Int) (dry_run : Bool) (nowLocal nowUtc : Int) :
    DraftOutcome :=
  let payload : DraftPayload :=
    { platforms := [("x", { enabled := true, posts := posts }),
                    ("threads", { enabled := true, posts := posts })],
      draft_title := "Hyperliquid Daily Positions - " ++ formatDateYMD nowLocal,
      share := true }
  let payload :=
    match schedule_minutes with
    | some m =>
        if m ≠ 0 then
          { payload with publish_at := some (formatUtcTimestamp (nowUtc + 60 * m)) }
        else payload
    | none => payload
  if dry_run then
    .dryRun { id := "dry_run", status := "draft", posts_count := posts.length }
  else
    .posted api_key social_set_id payload

/-- The HTTP request body issued by a `create_draft` call, if any. -/
def payloadOf : DraftOutcome → Option DraftPayload
  | .dryRun _ => none
  | .posted _ _ p => some p

/-! ## Health check (daily_feed.py lines 657-698 and 742-746) -/

/-- The status dict built by `health_check`: both service keys are always
present, initialised to `False` and set to `True` only when the respective
probe responds with HTTP 200. -/
structure HealthStatus where
  nansen : Bool
  typefully : Bool
  timestamp : String
deriving DecidableEq

/-- `health_check(env)` from daily_feed.py lines 657-698.  The probes are
abstracted: each yields the HTTP status code of the probe request or the
raised exception's message.  The Typefully probe runs only when
`env.get("typefully_api_key")` is truthy; otherwise the `typefully` key
keeps its initial value `False`. -/
def health_check (nansen_api_key : String) (typefully_api_key : Option String)
    (nansenProbe typefullyProbe : Except String Nat) (ts : String) : HealthStatus :=
  let nansenOk :=
    match nansenProbe with
    | .ok code => code == 200
    | .error _ => false
  let typefullyOk :=
    match typefully_api_key with
    | none => false
    | some _ =>
      match typefullyProbe with
      | .ok code => code == 200
      | .error _ => false
  { nansen := nansenOk, typefully := typefullyOk, timestamp := ts }

/-- The health-check exit code computed by `main` (daily_feed.py line 746):
`0 if all([status["nansen"], status.get("typefully", True)]) else 1`.
Since `health_check` always sets the `"typefully"` key, the `.get` default
`True` is dead and the expression equals `status["nansen"] and
status["typefully"]`. -/
def health_exit_code (status : HealthStatus) : Nat :=
  if status.nansen && status.typefully then 0 else 1

/-! ## Dict lemmas -/

theorem dictLookup_dictInsert_self (d : List (String × β)) (k : String) (v : β) :
    dictLookup (dictInsert d k v) k = some v := by
  induction d with
  | nil => simp [dictInsert, dictLookup]
  | cons p rest ih =>
    obtain ⟨k', v'⟩ := p
    by_cases h : k' = k <;> simp [dictInsert, dictLookup, h, ih]

theorem dictLookup_dictInsert_ne (d : List (String × β)) (k k' : String) (v : β)
    (h : k ≠ k') : dictLookup (dictInsert d k v) k' = dictLookup d k' := by
  induction d with
  | nil => simp [dictInsert, dictLookup, h]
  | cons p rest ih =>
    obtain ⟨k₀, v₀⟩ := p
    by_cases h₀ : k₀ = k
    · subst h₀
      simp [dictInsert, dictLookup, h]
    · simp [dictInsert, dictLookup, h₀, ih]

theorem dictKeys_nil : dictKeys ([] : List (String × β)) = [] := rfl

theorem dictKeys_cons (p : String × β) (d : List (String × β)) :
    dictKeys (p :: d) = p.1 :: dictKeys d := rfl

theorem dictKeys_dictInsert (d : List (String × β)) (k : String) (v : β) :
    dictKeys (dictInsert d k v) =
      if k ∈ dictKeys d then dictKeys d else dictKeys d ++ [k] := by
  induction d with
  | nil => simp [dictInsert, dictKeys]
  | cons p rest ih =>
    obtain ⟨k₀, v₀⟩ := p
    by_cases h₀ : k₀ = k
    · subst h₀
      simp [dictInsert, dictKeys_cons]
    · have hne : k ≠ k₀ := fun h => h₀ h.symm
      by_cases hmem : k ∈ dictKeys rest <;>
        simp [dictInsert, dictKeys_cons, h₀, hmem, hne, ih]

theorem dictLookup_dictRemove_self (d : List (String × β)) (k : String) :
    dictLookup (dictRemove d k) k = none := by
  induction d with
  | nil => simp [dictRemove, dictLookup]
  | cons p rest ih =>
    obtain ⟨k₀, v₀⟩ := p
    by_cases h₀ : k₀ = k <;> simp [dictRemove, dictLookup, h₀, ih]

theorem dictLookup_dictRemove_ne (d : List (String × β)) (k k' : String) (h : k ≠ k') :
    dictLookup (dictRemove d k) k' = dictLookup d k' := by
  induction d with
  | nil => simp [dictRemove]
  | cons p rest ih =>
    obtain ⟨k₀, v₀⟩ := p
    by_cases h₀ : k₀ = k
    · subst h₀
      simp [dictRemove, dictLookup, h, ih]
    · simp [dictRemove, dictLookup, h₀, ih]

/-! ## Retry-loop lemmas -/

theorem fetchAux_success (token : String) (outcome : Nat → AttemptResult α)
    (M i r : Nat) (b : ℚ) (v : α) (ho : outcome i = .success v) :
    fetchAux token outcome M i (r + 1) b = (.ok v, [RunEvent.attempt i]) := by
  simp [fetchAux, ho]

theorem fetchAux_fatal (token : String) (outcome : Nat → AttemptResult α)
    (M i r : Nat) (b : ℚ) (e : HttpError) (ho : outcome i = .statusErr e)
    (h4 : 400 ≤ e.status_code) (h5 : e.status_code < 500) (h9 : e.status_code ≠ 429) :
    fetchAux token outcome M i (r + 1) b = (.error (.clientError e), [RunEvent.attempt i]) := by
  simp [fetchAux, ho, h4, h5, h9]

theorem fetchAux_retryable_step (token : String) (outcome : Nat → AttemptResult α)
    (M i r : Nat) (b : ℚ) (h : RetryableFailure (outcome i)) (hr : 0 < r) :
    fetchAux token outcome M i (r + 1) b =
      ((fetchAux token outcome M (i + 1) r (2 * b)).1,
        RunEvent.attempt i :: RunEvent.sleep b ::
          (fetchAux token outcome M (i + 1) r (2 * b)).2) := by
  cases ho : outcome i with
  | success v => rw [ho] at h; simp [RetryableFailure] at h
  | timeoutErr m => simp [fetchAux, ho, hr]
  | requestErr m => simp [fetchAux, ho, hr]
  | statusErr e =>
    rw [ho] at h
    simp only [RetryableFailure] at h
    simp [fetchAux, ho, hr, h]

theorem fetchAux_last_retryable (token : String) (outcome : Nat → AttemptResult α)
    (M i : Nat) (b : ℚ) (h : RetryableFailure (outcome i)) :
    fetchAux token outcome M i 1 b =
      (.error (.retriesExhausted token M), [RunEvent.attempt i]) := by
  cases ho : outcome i with
  | success v => rw [ho] at h; simp [RetryableFailure] at h
  | timeoutErr m => simp [fetchAux, ho]
  | requestErr m => simp [fetchAux, ho]
  | statusErr e =>
    rw [ho] at h
    simp only [RetryableFailure] at h
    simp [fetchAux, ho, h]

theorem fetchAux_failPrefix (token : String) (outcome : Nat → AttemptResult α) (M : Nat) :
    ∀ (k i r : Nat) (b : ℚ), (∀ j, j < k → RetryableFailure (outcome (i + j))) → k < r →
    fetchAux token outcome M i r b =
      ((fetchAux token outcome M (i + k) (r - k) (2 ^ k * b)).1,
        failTrace b i k ++ (fetchAux token outcome M (i + k) (r - k) (2 ^ k * b)).2) := by
  intro k
  induction k with
  | zero =>
    intro i r b _ _
    simp [failTrace]
  | succ k ih =>
    intro i r b hfail hlt
    obtain ⟨r', rfl⟩ : ∃ r', r = r' + 1 := ⟨r - 1, by omega⟩
    have hr' : 0 < r' := by omega
    have hstep := fetchAux_retryable_step token outcome M i r' b
      (by simpa using hfail 0 (by omega)) hr'
    have hih := ih (i + 1) r' (2 * b)
      (fun j hj => by
        have := hfail (j + 1) (by omega)
        simpa [Nat.add_assoc, Nat.add_comm 1 j] using this)
      (by omega)
    have harg1 : i + 1 + k = i + (k + 1) := by omega
    have harg2 : r' - k = r' + 1 - (k + 1) := by omega
    have harg3 : 2 ^ k * (2 * b) = 2 ^ (k + 1) * b := by ring
    rw [hstep, hih, harg1, harg2, harg3, failTrace]
    simp

theorem fetchAux_allFail (token : String) (outcome : Nat → AttemptResult α) (M : Nat)
    (i r : Nat) (b : ℚ) (hfail : ∀ j, j < r → RetryableFailure (outcome (i + j)))
    (hr : 0 < r) :
    fetchAux token outcome M i r b =
      (.error (.retriesExhausted token M),
        failTrace b i (r - 1) ++ [RunEvent.attempt (i + (r - 1))]) := by
  have hpre := fetchAux_failPrefix token outcome M (r - 1) i r b
    (fun j hj => hfail j (by omega)) (by omega)
  have hone : r - (r - 1) = 1 := by omega
  rw [hone] at hpre
  have hlast := fetchAux_last_retryable token outcome M (i + (r - 1)) (2 ^ (r - 1) * b)
    (hfail (r - 1) (by omega))
  rw [hpre, hlast]

/-! ## Aggregator lemmas -/

theorem fetch_all_positions_eq (tokens : List String)
    (fetch : String → Except String TokenResult) :
    fetch_all_positions tokens fetch =
      tokens.foldl (fun results token => dictInsert results token (fetchEntry fetch token)) [] := by
  unfold fetch_all_positions
  congr 1
  funext results token
  unfold fetchEntry
  cases fetch token <;> rfl

theorem foldl_dictInsert_lookup (entry : String → β) :
    ∀ (tokens : List String) (d : List (String × β)) (t : String),
      dictLookup (tokens.foldl (fun res tok => dictInsert res tok (entry tok)) d) t =
        if t ∈ tokens then some (entry t) else dictLookup d t := by
  intro tokens
  induction tokens with
  | nil => simp
  | cons s ss ih =>
    intro d t
    simp only [List.foldl_cons]
    rw [ih]
    by_cases hmem : t ∈ ss
    · simp [hmem]
    · by_cases hts : t = s
      · subst hts
        simp [hmem, dictLookup_dictInsert_self]
      · simp [hmem, hts, dictLookup_dictInsert_ne d s t _ (fun h => hts h.symm)]

theorem foldl_dictInsert_keys (entry : String → β) :
    ∀ (tokens : List String) (d : List (String × β)),
      dictKeys (tokens.foldl (fun res tok => dictInsert res tok (entry tok)) d) =
        tokens.foldl (fun ks t => if t ∈ ks then ks else ks ++ [t]) (dictKeys d) := by
  intro tokens
  induction tokens with
  | nil => simp
  | cons s ss ih =>
    intro d
    simp only [List.foldl_cons]
    rw [ih, dictKeys_dictInsert]

theorem mem_foldl_insertKey :
    ∀ (ts ks : List String) (t : String),
      t ∈ ts.foldl (fun ks t => if t ∈ ks then ks else ks ++ [t]) ks ↔ t ∈ ks ∨ t ∈ ts := by
  intro ts
  induction ts with
  | nil => simp
  | cons s ss ih =>
    intro ks t
    by_cases hs : s ∈ ks
    · rw [List.foldl_cons, if_pos hs, ih]
      constructor
      · rintro (h | h)
        · exact Or.inl h
        · exact Or.inr (List.mem_cons_of_mem s h)
      · rintro (h | h)
        · exact Or.inl h
        · rcases List.mem_cons.mp h with rfl | h
          · exact Or.inl hs
          · exact Or.inr h
    · rw [List.foldl_cons, if_neg hs, ih]
      simp only [List.mem_append, List.mem_singleton, List.mem_cons]
      tauto

theorem nodup_foldl_insertKey :
    ∀ (ts ks : List String), ks.Nodup →
      (ts.foldl (fun ks t => if t ∈ ks then ks else ks ++ [t]) ks).Nodup := by
  intro ts
  induction ts with
  | nil => intro ks h; simpa using h
  | cons s ss ih =>
    intro ks h
    by_cases hs : s ∈ ks
    · rw [List.foldl_cons, if_pos hs]
      exact ih ks h
    · rw [List.foldl_cons, if_neg hs]
      refine ih _ ?_
      simp [List.nodup_append, h, hs]

theorem foldl_insertKey_fresh :
    ∀ (ts ks : List String), ts.Nodup → (∀ t ∈ ts, t ∉ ks) →
      ts.foldl (fun ks t => if t ∈ ks then ks else ks ++ [t]) ks = ks ++ ts := by
  intro ts
  induction ts with
  | nil => simp
  | cons s ss ih =>
    intro ks hnd hfresh
    have hs : s ∉ ks := hfresh s (List.mem_cons_self s ss)
    rw [List.foldl_cons, if_neg hs,
      ih (ks ++ [s]) (List.Nodup.of_cons hnd) (by
        intro t ht
        simp only [List.mem_append, List.mem_singleton]
        rintro (h | rfl)
        · exact hfresh t (List.mem_cons_of_mem s ht) h
        · exact (List.nodup_cons.mp hnd).1 ht)]
    simp

/-! ## Claims C1-C4 -/

/-- C1: for every token list and per-token fetch function,
`fetch_all_positions` maps each token whose fetch raised to the marker
`{"data": [], "error": str(exception)}` and each token whose fetch succeeded
to the fetched result; no token's failure removes or changes any other
token's entry, since every token of the input is mapped this way. -/
theorem fetch_all_positions_error_isolation (tokens : List String)
    (fetch : String → Except String TokenResult) (token : String) (htok : token ∈ tokens) :
    dictLookup (fetch_all_positions tokens fetch) token =
      some (match fetch token with
            | .ok r => r
            | .error e => { data := [], error := some e }) := by
  rw [fetch_all_positions_eq, foldl_dictInsert_lookup, if_pos htok]
  unfold fetchEntry
  cases fetch token <;> rfl

/-- C1 witness: with two tokens of which the first fails, the mapping holds
the error marker for the failed token and the fetched result for the other. -/
theorem fetch_all_positions_error_isolation_witness :
    dictLookup
        (fetch_all_positions ["BTC", "ETH"]
          (fun t => if t = "BTC" then .error "boom" else .ok { data := [] }))
        "BTC" = some { data := [], error := some "boom" } ∧
    dictLookup
        (fetch_all_positions ["BTC", "ETH"]
          (fun t => if t = "BTC" then .error "boom" else .ok { data := [] }))
        "ETH" = some { data := [] } := by
  constructor
  · have h := fetch_all_positions_error_isolation ["BTC", "ETH"]
      (fun t => if t = "BTC" then .error "boom" else .ok { data := [] }) "BTC" (by decide)
    simpa using h
  · have h := fetch_all_positions_error_isolation ["BTC", "ETH"]
      (fun t => if t = "BTC" then .error "boom" else .ok { data := [] }) "ETH" (by decide)
    simpa using h

/-- C4: for every token list (any length, duplicates and arbitrary symbols
allowed), the mapping returned by `fetch_all_positions` has pairwise-distinct
keys, its key list is the input list in input order with later duplicates
dropped (Python dict insertion order), each input token is a key, and for a
duplicate-free input the key list is exactly the input list. -/
theorem fetch_all_positions_one_entry_per_token (tokens : List String)
    (fetch : String → Except String TokenResult) :
    dictKeys (fetch_all_positions tokens fetch) = firstOccurKeys tokens
    ∧ (dictKeys (fetch_all_positions tokens fetch)).Nodup
    ∧ (∀ t, t ∈ dictKeys (fetch_all_positions tokens fetch) ↔ t ∈ tokens)
    ∧ (tokens.Nodup → dictKeys (fetch_all_positions tokens fetch) = tokens) := by
  have hkeys : dictKeys (fetch_all_positions tokens fetch) = firstOccurKeys tokens := by
    rw [fetch_all_positions_eq, foldl_dictInsert_keys]
    rfl
  refine ⟨hkeys, ?_, ?_, ?_⟩
  · rw [hkeys]
    exact nodup_foldl_insertKey tokens [] List.nodup_nil
  · intro t
    rw [hkeys]
    unfold firstOccurKeys
    rw [mem_foldl_insertKey]
    simp
  · intro hnd
    rw [hkeys]
    unfold firstOccurKeys
    rw [foldl_insertKey_fresh tokens [] hnd (by simp)]
    simp

/-- C4 witness: on the configured duplicate-free token list the keys equal
the input list in order. -/
theorem fetch_all_positions_one_entry_per_token_witness :
    dictKeys (fetch_all_positions ["BTC", "ETH", "SOL", "HYPE"] (fun _ => .error "x")) =
      ["BTC", "ETH", "SOL", "HYPE"] :=
  (fetch_all_positions_one_entry_per_token ["BTC", "ETH", "SOL", "HYPE"] _).2.2.2 (by decide)

/-- C2: with `max_retries = 3` and `initial_backoff = 1.0`, if every attempt
fails retryably the observable trace is exactly attempt 1, sleep 1.0,
attempt 2, sleep 2.0, attempt 3 — no sleep before the first attempt, the
delay doubling after each failure, and no sleep after the final attempt. -/
theorem retry_backoff_sequence (token : String) (outcome : Nat → AttemptResult α)
    (hfail : ∀ i, i < 3 → RetryableFailure (outcome i)) :
    (fetch_positions_with_retry token outcome 3 1).2 =
      [RunEvent.attempt 0, RunEvent.sleep 1, RunEvent.attempt 1,
       RunEvent.sleep 2, RunEvent.attempt 2] := by
  have h := fetchAux_allFail token outcome 3 0 3 1
    (fun j hj => by simpa using hfail j hj) (by omega)
  rw [fetch_positions_with_retry, h]
  norm_num [failTrace]

/-- C2 witness: the trace at a concrete all-timeout run. -/
theorem retry_backoff_sequence_witness :
    (fetch_positions_with_retry "BTC"
        (fun _ => (AttemptResult.timeoutErr "timed out" : AttemptResult Unit)) 3 1).2 =
      [RunEvent.attempt 0, RunEvent.sleep 1, RunEvent.attempt 1,
       RunEvent.sleep 2, RunEvent.attempt 2] :=
  retry_backoff_sequence "BTC" _ (fun _i _ => trivial)

/-- C3: a non-429 4xx status error on any attempt (after any run of
retryable failures) makes `fetch_positions_with_retry` re-raise that error
at once, with no further attempt and no sleep after it; and timeouts,
request errors, 5xx and 429 are retried until the attempt budget of 3 is
exhausted. -/
theorem retry_error_classification (token : String) (outcome : Nat → AttemptResult α)
    (b : ℚ) :
    (∀ (e : HttpError) (k maxR : Nat),
        k < maxR →
        (∀ i, i < k → RetryableFailure (outcome i)) →
        outcome k = .statusErr e →
        400 ≤ e.status_code → e.status_code < 500 → e.status_code ≠ 429 →
        fetch_positions_with_retry token outcome maxR b =
          (.error (.clientError e), failTrace b 0 k ++ [RunEvent.attempt k]))
    ∧ ((∀ i, i < 3 → RetryableFailure (outcome i)) →
        fetch_positions_with_retry token outcome 3 b =
          (.error (.retriesExhausted token 3), failTrace b 0 2 ++ [RunEvent.attempt 2])) := by
  constructor
  · intro e k maxR hk hfail ho h4 h5 h9
    have hpre := fetchAux_failPrefix token outcome maxR k 0 maxR b
      (fun j hj => by simpa using hfail j hj) hk
    obtain ⟨r', hr'⟩ : ∃ r', maxR - k = r' + 1 := ⟨maxR - k - 1, by omega⟩
    have hfatal := fetchAux_fatal token outcome maxR (0 + k) r' (2 ^ k * b) e
      (by simpa using ho) h4 h5 h9
    rw [fetch_positions_with_retry, hpre, hr', hfatal]
    simp
  · intro hfail
    have h := fetchAux_allFail token outcome 3 0 3 b
      (fun j hj => by simpa using hfail j hj) (by omega)
    rw [fetch_positions_with_retry, h]

/-- C3 witness: a 404 on attempt 1 terminates at once with no sleep, while
an all-503 run performs all three attempts before the terminal error. -/
theorem retry_error_classification_witness :
    fetch_positions_with_retry "ETH"
        (fun _ => (AttemptResult.statusErr ⟨404, "Not Found", "client error 404"⟩ :
          AttemptResult Unit)) 3 1 =
      (.error (.clientError ⟨404, "Not Found", "client error 404"⟩),
        [RunEvent.attempt 0]) ∧
    fetch_positions_with_retry "ETH"
        (fun _ => (AttemptResult.statusErr ⟨503, "", "server error 503"⟩ :
          AttemptResult Unit)) 3 1 =
      (.error (.retriesExhausted "ETH" 3),
        failTrace 1 0 2 ++ [RunEvent.attempt 2]) := by
  constructor
  · have h := (retry_error_classification "ETH"
        (fun _ => (AttemptResult.statusErr ⟨404, "Not Found", "client error 404"⟩ :
          AttemptResult Unit)) 1).1
      ⟨404, "Not Found", "client error 404"⟩ 0 3 (by omega)
      (fun i hi => absurd hi (by omega)) rfl (by decide) (by decide) (by decide)
    simpa [failTrace] using h
  · exact (retry_error_classification "ETH"
      (fun _ => (AttemptResult.statusErr ⟨503, "", "server error 503"⟩ :
        AttemptResult Unit)) 1).2
      (fun i _ => by decide)

/-! ## Formatter lemmas -/

theorem string_ne_empty_of_pos {s : String} (h : 0 < s.length) : s ≠ "" := by
  intro he
  simp [he] at h

theorem joinNL_two_ne_empty (h x : String) (xs : List String) :
    joinNL (h :: x :: xs) ≠ "" := by
  have heq : joinNL (h :: x :: xs) = h ++ "\n" ++ joinNL (x :: xs) := rfl
  refine string_ne_empty_of_pos ?_
  rw [heq]
  have h1 : 0 < ("\n" : String).length := by decide
  simp only [String.length_append]
  omega

theorem foldl_skipOrAppend {γ δ : Type} (c : γ → Bool) (f : γ → List δ) :
    ∀ (l : List γ) (acc : List δ),
      l.foldl (fun a it => if c it then a else a ++ f it) acc =
        acc ++ ((l.filter (fun it => !(c it))).map f).flatten := by
  intro l
  induction l with
  | nil => simp
  | cons x xs ih =>
    intro acc
    by_cases hc : c x
    · rw [List.foldl_cons, if_pos hc, ih]
      simp [List.filter_cons, hc]
    · rw [List.foldl_cons, if_neg hc, ih]
      simp [List.filter_cons, hc]

theorem format_thread_eq (dateStr : String) (data : List (String × TokenValue)) :
    format_thread dateStr data =
      ((TOKENS.enum.filter (fun it => !(positionsOf data it.2).isEmpty)).map
        (fun it => format_token_tweets dateStr it.2 (positionsOf data it.2) (it.1 == 0))).flatten
      ++ [format_footer_tweet] := by
  unfold format_thread
  have h := foldl_skipOrAppend (fun it : Nat × String => (positionsOf data it.2).isEmpty)
    (fun it : Nat × String => format_token_tweets dateStr it.2 (positionsOf data it.2) (it.1 == 0))
    TOKENS.enum []
  simpa using congrArg (fun l => l ++ [format_footer_tweet]) h

theorem chunkTweets_text_ne (dateStr token : String)
    (total_positions longs shorts total_chunks : Nat) (is_first : Bool) :
    ∀ (n ci : Nat) (l : List Position), l.length ≤ n →
      ∀ p ∈ chunkTweets dateStr token total_positions longs shorts total_chunks is_first ci l,
        p.text ≠ "" := by
  intro n
  induction n with
  | zero =>
    intro ci l hl p hp
    have hnil : l = [] := List.eq_nil_of_length_eq_zero (Nat.le_zero.mp hl)
    rw [hnil] at hp
    simp [chunkTweets] at hp
  | succ n ih =>
    intro ci l hl p hp
    cases l with
    | nil => simp [chunkTweets] at hp
    | cons q qs =>
      rw [chunkTweets] at hp
      rcases List.mem_cons.mp hp with rfl | hmem
      · exact joinNL_two_ne_empty _ _ _
      · refine ih (ci + POSITIONS_PER_TWEET) (qs.drop (POSITIONS_PER_TWEET - 1)) ?_ p hmem
        have := List.length_drop (POSITIONS_PER_TWEET - 1) qs
        simp at hl ⊢
        omega

theorem format_token_tweets_text_ne (dateStr token : String) (positions : List Position)
    (is_first : Bool) :
    ∀ p ∈ format_token_tweets dateStr token positions is_first, p.text ≠ "" := by
  intro p hp
  by_cases he : positions.isEmpty
  · rw [format_token_tweets, if_pos he] at hp
    rcases List.mem_singleton.mp hp with rfl
    refine string_ne_empty_of_pos ?_
    have h1 : 0 < (": No positions found" : String).length := by decide
    simp only [String.length_append]
    omega
  · rw [format_token_tweets, if_neg he] at hp
    exact chunkTweets_text_ne dateStr token _ _ _ _ is_first positions.length 0 positions
      le_rfl p hp

theorem format_footer_tweet_text_ne : format_footer_tweet.text ≠ "" := by decide

theorem format_thread_posts_text_ne (dateStr : String) (data : List (String × TokenValue)) :
    ∀ p ∈ format_thread dateStr data, p.text ≠ "" := by
  intro p hp
  rw [format_thread_eq] at hp
  rcases List.mem_append.mp hp with hp | hp
  · obtain ⟨l, hl, hpl⟩ := List.mem_flatten.mp hp
    obtain ⟨it, _hit, rfl⟩ := List.mem_map.mp hl
    exact format_token_tweets_text_ne dateStr it.2 _ _ p hpl
  · rcases List.mem_singleton.mp hp with rfl
    exact format_footer_tweet_text_ne

theorem positionsOf_dictInsert_ne (data : List (String × TokenValue)) (k t : String)
    (v : TokenValue) (h : k ≠ t) :
    positionsOf (dictInsert data k v) t = positionsOf data t := by
  unfold positionsOf
  rw [dictLookup_dictInsert_ne _ _ _ _ h]

theorem positionsOf_dictInsert_empty (data : List (String × TokenValue)) (t e : String) :
    positionsOf (dictInsert data t (.obj { data := [], error := some e })) t = [] := by
  unfold positionsOf
  rw [dictLookup_dictInsert_self]

theorem positionsOf_dictRemove (data : List (String × TokenValue)) (k t : String) :
    positionsOf (dictRemove data k) t = if k = t then [] else positionsOf data t := by
  by_cases h : k = t
  · subst h
    unfold positionsOf
    rw [dictLookup_dictRemove_self]
    simp
  · unfold positionsOf
    rw [dictLookup_dictRemove_ne _ _ _ h, if_neg h]

theorem format_thread_congr (dateStr : String) (d1 d2 : List (String × TokenValue))
    (h : ∀ t ∈ TOKENS, positionsOf d1 t = positionsOf d2 t) :
    format_thread dateStr d1 = format_thread dateStr d2 := by
  rw [format_thread_eq, format_thread_eq]
  have hq : ∀ it ∈ TOKENS.enum, positionsOf d1 it.2 = positionsOf d2 it.2 :=
    fun it hit => h it.2 (List.snd_mem_of_mem_enum hit)
  have hfilter : TOKENS.enum.filter (fun it => !(positionsOf d1 it.2).isEmpty) =
      TOKENS.enum.filter (fun it => !(positionsOf d2 it.2).isEmpty) :=
    List.filter_congr (fun it hit => by rw [hq it hit])
  rw [hfilter]
  congr 1
  refine congrArg List.flatten ?_
  refine List.map_congr_left ?_
  intro it hit
  rw [hq it (List.mem_of_mem_filter hit)]

/-! ## Claims C8, C9, C10 -/

/-- C8: for every input mapping (including one with zero successful tokens)
`format_thread` returns a non-empty post sequence whose last element is the
footer post, and every post in the sequence has non-empty text. -/
theorem format_thread_nonempty_footer (dateStr : String) (data : List (String × TokenValue)) :
    format_thread dateStr data ≠ []
    ∧ (format_thread dateStr data).getLast? = some format_footer_tweet
    ∧ ∀ p ∈ format_thread dateStr data, p.text ≠ "" := by
  refine ⟨?_, ?_, format_thread_posts_text_ne dateStr data⟩
  · rw [format_thread_eq]
    simp
  · rw [format_thread_eq]
    exact List.getLast?_concat _

/-- C9: `format_price` follows the precision tiers at the claim's sample
points: 1234.5 (= 2469/2) renders as integer dollars with a thousands
separator, 42.5 (= 85/2) with two decimals, and 0.0042 (= 21/5000) with
four decimals. -/
theorem format_price_precision_tiers :
    format_price (mkRat 2469 2) = "$1,234"
    ∧ format_price (mkRat 85 2) = "$42.50"
    ∧ format_price (mkRat 21 5000) = "$0.0042" := by
  refine ⟨by decide, by decide, by decide⟩

/-- C10: `format_thread` emits token posts exactly for the hard-coded
`TOKENS` entries with a non-empty position list: adding an entry under any
key outside `TOKENS` never changes the output, an entry with the error
marker (empty `data`) behaves exactly as if the key were absent (so it
produces no post at all), and the output is precisely the per-token tweet
batches of the non-empty `TOKENS` entries followed by the footer. -/
theorem format_thread_token_selection (dateStr : String) (data : List (String × TokenValue)) :
    (∀ (k : String) (v : TokenValue), k ∉ TOKENS →
        format_thread dateStr (dictInsert data k v) = format_thread dateStr data)
    ∧ (∀ (t e : String),
        format_thread dateStr (dictInsert data t (.obj { data := [], error := some e })) =
          format_thread dateStr (dictRemove data t))
    ∧ format_thread dateStr data =
        ((TOKENS.enum.filter (fun it => !(positionsOf data it.2).isEmpty)).map
          (fun it => format_token_tweets dateStr it.2 (positionsOf data it.2) (it.1 == 0))).flatten
        ++ [format_footer_tweet] := by
  refine ⟨?_, ?_, format_thread_eq dateStr data⟩
  · intro k v hk
    refine format_thread_congr dateStr _ _ ?_
    intro u hu
    exact positionsOf_dictInsert_ne data k u v (fun h => hk (h ▸ hu))
  · intro t e
    refine format_thread_congr dateStr _ _ ?_
    intro u _hu
    by_cases hut : t = u
    · subst hut
      rw [positionsOf_dictInsert_empty, positionsOf_dictRemove]
      simp
    · rw [positionsOf_dictInsert_ne data t u _ hut, positionsOf_dictRemove, if_neg hut]

/-- C10 witness: a non-configured key ("DOGE") is ignored, and an
error-marker entry for "BTC" formats exactly like an absent "BTC". -/
theorem format_thread_token_selection_witness :
    format_thread "October 12, 2026" (dictInsert [] "DOGE" (.arr [{}])) =
      format_thread "October 12, 2026" [] ∧
    format_thread "October 12, 2026"
        (dictInsert [] "BTC" (.obj { data := [], error := some "boom" })) =
      format_thread "October 12, 2026" (dictRemove [] "BTC") :=
  ⟨(format_thread_token_selection "October 12, 2026" []).1 "DOGE" _ (by decide),
   (format_thread_token_selection "October 12, 2026" []).2.1 "BTC" "boom"⟩

/-! ## Claims C6, C7 -/

/-- C6: for every credentials, social-set id, post list and schedule value,
`create_draft` with `dry_run` set issues no network request and returns the
synthetic result `{"id": "dry_run", "status": "draft", "posts_count": len(posts)}`
with the fixed placeholder identifier. -/
theorem create_draft_dry_run (api_key : String) (social_set_id : Int)
    (posts : List Post) (schedule_minutes : Option Int) (nowLocal nowUtc : Int) :
    create_draft api_key social_set_id posts schedule_minutes true nowLocal nowUtc =
      .dryRun { id := "dry_run", status := "draft", posts_count := posts.length } := by
  unfold create_draft
  cases schedule_minutes with
  | none => rfl
  | some m => by_cases hm : m ≠ 0 <;> simp [hm]

/-- C7 counterexample: with the schedule offset 0 supplied, the issued
payload contains no `publish_at` field, contradicting the claim that every
supplied integer offset (including 0) yields a `publish_at`. -/
theorem create_draft_schedule_zero_counterexample :
    payloadOf (create_draft "key" 1 [] (some 0) false 0 0) =
      some { platforms := [("x", { enabled := true, posts := [] }),
                           ("threads", { enabled := true, posts := [] })],
             draft_title := "Hyperliquid Daily Positions - 1970-01-01",
             share := true,
             publish_at := none } := by
  decide

/-- C7 (amended): for every non-zero schedule offset `m`, the request
payload includes `publish_at` equal to the current UTC time plus `m`
minutes rendered as an absolute `%Y-%m-%dT%H:%M:%SZ` timestamp; when the
offset is absent or equal to 0 the payload has no `publish_at` field. -/
theorem create_draft_publish_at (api_key : String) (social_set_id : Int)
    (posts : List Post) (nowLocal nowUtc : Int) (m : Int) (hm : m ≠ 0) :
    (payloadOf (create_draft api_key social_set_id posts (some m) false nowLocal nowUtc)).map
        (fun p => p.publish_at) = some (some (formatUtcTimestamp (nowUtc + 60 * m)))
    ∧ (payloadOf (create_draft api_key social_set_id posts none false nowLocal nowUtc)).map
        (fun p => p.publish_at) = some none
    ∧ (payloadOf (create_draft api_key social_set_id posts (some 0) false nowLocal nowUtc)).map
        (fun p => p.publish_at) = some none := by
  refine ⟨?_, rfl, ?_⟩
  · simp [create_draft, payloadOf, hm]
  · simp [create_draft, payloadOf]

/-- C7 witness: a concrete five-minute offset produces the timestamp of
`now + 300` seconds; an absent or zero offset produces none. -/
theorem create_draft_publish_at_witness :
    (payloadOf (create_draft "key" 1 [] (some 5) false 0 0)).map
        (fun p => p.publish_at) = some (some (formatUtcTimestamp (0 + 60 * 5)))
    ∧ (payloadOf (create_draft "key" 1 [] none false 0 0)).map
        (fun p => p.publish_at) = some none
    ∧ (payloadOf (create_draft "key" 1 [] (some 0) false 0 0)).map
        (fun p => p.publish_at) = some none :=
  create_draft_publish_at "key" 1 [] 0 0 5 (by decide)

/-! ## Claim C5 -/

/-- C5: the health-check exit code of `main`.  Contrary to the claim (and
the spec's "exit code 0 only if all probed services are reachable"), a run
in which the data API answered 200 but the publishing API was not probed
for lack of a key exits 1, because `health_check` initialises the
`"typefully"` key to `False`, making the `status.get("typefully", True)`
default in `main` dead code.  The remaining conjuncts confirm the claim's
direction that any probed-and-unreachable service forces exit code 1 and
that both probes answering 200 gives exit code 0. -/
theorem health_check_exit_code (k tk ts : String) (p : Except String Nat) :
    health_exit_code (health_check k none (.ok 200) p ts) = 1
    ∧ health_exit_code (health_check k (some tk) (.ok 200) (.ok 200) ts) = 0
    ∧ health_exit_code (health_check k (some tk) (.error "down") (.ok 200) ts) = 1
    ∧ health_exit_code (health_check k (some tk) (.ok 200) (.error "down") ts) = 1 :=
  ⟨rfl, rfl, rfl, rfl⟩
